import Mathlib

/-!
Shallow embedding of the grpc-go-pool client pool (pool.go).

Channels are modelled as bounded FIFO lists: a receive takes the head, a
send appends at the tail, and a send on a full or nil channel blocks.
Pointers to shared ConcurrencyCounter cells are modelled as indices into
a counter heap carried in the pool state; a nil counter pointer is
modelled as `none`, and incrementing or decrementing through it yields a
dedicated `nilDeref` outcome. The grpc connections are opaque natural
number identifiers; the identifiers of connections on which the
underlying grpc Close was invoked are recorded in `closedConns`. Time is
an abstract natural number supplied by the caller of each operation. The
factory is modelled as a Boolean schedule: invocation number k succeeds
iff `fOk k`, and each success yields a fresh connection identifier taken
from `nextConn`. The select statement in Get is modelled as preferring a
ready receive over the cancellation branch.
-/

namespace GrpcPool

/-- Wrapper for a grpc client conn (struct ClientConn in pool.go). The
pool back pointer is implicit: the model tracks a single pool, threaded
through every operation. -/
structure ClientConn where
  conn : Option Nat
  timeUsed : Nat
  timeInitiated : Nat
  unhealthy : Bool
  concurrency : Option Nat
deriving DecidableEq, Repr

/-- The grpc client pool (struct Pool in pool.go) together with the heap
of shared ConcurrencyCounter cells and the bookkeeping of the outside
world: closed connection ids, the factory invocation count and the
supply of fresh connection ids. -/
structure PoolState where
  clients : Option (List ClientConn)
  unhealthyClients : Option (List ClientConn)
  capacity : Nat
  idleTimeout : Nat
  maxLifeDuration : Nat
  counters : List Int
  closedConns : List Nat
  nextConn : Nat
  factoryCalls : Nat
deriving DecidableEq, Repr

/-- Outcome of Pool.Get. `ok` and `factoryErr` carry the state after the
call and the wrapper returned to the caller; `blocked` carries the state
at the moment a channel send or receive blocks for good in a sequential
execution; `nilDeref` marks a nil pointer dereference on a missing
ConcurrencyCounter. -/
inductive GetResult where
  | ok (s : PoolState) (h : ClientConn)
  | factoryErr (s : PoolState) (h : ClientConn)
  | errClosed
  | errTimeout
  | blocked (s : PoolState)
  | nilDeref (s : PoolState)
deriving DecidableEq, Repr

/-- Outcome of ClientConn.Close (the release operation). The error
outcomes carry the handle and the state unchanged, matching the early
returns in the source. -/
inductive RelResult where
  | ok (c : ClientConn) (s : PoolState)
  | alreadyClosed (c : ClientConn) (s : PoolState)
  | errClosed (c : ClientConn) (s : PoolState)
  | blocked (s : PoolState)
  | nilDeref (s : PoolState)
deriving DecidableEq, Repr

/-- Send on a bounded channel: append when there is room, block (none)
when the buffer is full. -/
def chanSend (q : List ClientConn) (bound : Nat) (w : ClientConn) : Option (List ClientConn) :=
  if q.length < bound then some (q ++ [w]) else none

/-- atomic.AddInt32 with +1 on the counter cell at index i. -/
def incrCounter (cs : List Int) (i : Nat) : List Int :=
  cs.set i (cs.getD i 0 + 1)

/-- atomic.AddInt32 with -1 on the counter cell at index i. -/
def decrCounter (cs : List Int) (i : Nat) : List Int :=
  cs.set i (cs.getD i 0 - 1)

/-- The placeholder `ClientConn{pool: p}` pushed back by Get when the
factory fails: every field other than the pool pointer is the zero
value, so in particular its concurrency pointer is nil. -/
def emptyPlaceholder : ClientConn :=
  { conn := none, timeUsed := 0, timeInitiated := 0, unhealthy := false, concurrency := none }

/-- Pool.IsClosed: the pool is closed once the clients channel is nil. -/
def isClosed (p : PoolState) : Bool :=
  p.clients.isNone

/-- Pool.Available: 0 on a closed pool, otherwise len of the clients
channel. -/
def available (p : PoolState) : Nat :=
  if isClosed p then 0 else (p.clients.getD []).length

/-- Pool.Capacity: 0 on a closed pool, otherwise the fixed channel
capacity. -/
def capacityOf (p : PoolState) : Nat :=
  if isClosed p then 0 else p.capacity

/-- The coercion `if capacity <= 0 { capacity = 1 }` in NewWithContext. -/
def coercedCapacity (capacity : Int) : Int :=
  if capacity ≤ 0 then 1 else capacity

/-- The coercions `if init < 0 { init = 0 }; if init > capacity { init =
capacity }` in NewWithContext, applied after the capacity coercion. -/
def coercedInit (init capacity : Int) : Int :=
  let i := if init < 0 then 0 else init
  if i > capacity then capacity else i

/-- NewWithContext: coerce the parameters, invoke the factory init times
eagerly (failing the whole construction on the first factory error),
fill the remaining slots with empty placeholder wrappers, and allocate a
fresh ConcurrencyCounter cell for every slot. Connection ids 0..init-1
and counter cells 0..capacity-1 are allocated in order. -/
def newWithContext (fOk : Nat → Bool) (init capacity : Int)
    (idleTimeout maxLifeDuration now : Nat) : Option PoolState :=
  let bound := (coercedCapacity capacity).toNat
  let ini := (coercedInit init (coercedCapacity capacity)).toNat
  if (List.range ini).all fOk then
    some
      { clients := some
          ((List.range ini).map (fun i =>
            { conn := some i, timeUsed := now, timeInitiated := now,
              unhealthy := false, concurrency := some i }) ++
           (List.range (bound - ini)).map (fun j =>
            { conn := none, timeUsed := 0, timeInitiated := 0,
              unhealthy := false, concurrency := some (ini + j) })),
        unhealthyClients := some [],
        capacity := bound,
        idleTimeout := idleTimeout,
        maxLifeDuration := maxLifeDuration,
        counters := List.replicate bound 0,
        closedConns := [],
        nextConn := ini,
        factoryCalls := ini }
  else none

/-- Tail of Pool.Get after the factory section: if the wrapper holds a
connection, increment its ConcurrencyCounter (nil dereference when the
counter pointer is absent); if the wrapper is not marked unhealthy, send
it back into the clients channel; finally return the wrapper together
with the factory error, if any. -/
def getReturn (p : PoolState) (w : ClientConn) (isErr : Bool) : GetResult :=
  if w.unhealthy then
    if isErr then .factoryErr p w else .ok p w
  else
    match p.clients with
    | none => .blocked p
    | some q =>
      match chanSend q p.capacity w with
      | none => .blocked p
      | some q2 =>
        let p2 := { p with clients := some q2 }
        if isErr then .factoryErr p2 w else .ok p2 w

/-- The concurrency counter increment of Pool.Get (lines 218-221),
followed by the optimistic re-enqueue and the return. -/
def getFinish (p : PoolState) (w : ClientConn) (isErr : Bool) : GetResult :=
  if w.conn.isSome then
    match w.concurrency with
    | none => .nilDeref p
    | some cid => getReturn { p with counters := incrCounter p.counters cid } w isErr
  else getReturn p w isErr

/-- Pool.Get. `ctxDone` tells whether the context of the caller is
already cancelled when the select statement runs; a ready receive is
preferred over the cancellation branch. -/
def get (fOk : Nat → Bool) (ctxDone : Bool) (p : PoolState) (now : Nat) : GetResult :=
  match p.clients with
  | none => .errClosed
  | some [] => if ctxDone then .errTimeout else .blocked p
  | some (w :: rest) =>
    let evict : Bool :=
      w.conn.isSome && decide (0 < p.idleTimeout) && decide (w.timeUsed + p.idleTimeout < now)
    let w1 := if evict then { w with conn := none } else w
    let p1 := { p with
      clients := some rest,
      closedConns := if evict then p.closedConns ++ w.conn.toList else p.closedConns }
    if w1.conn.isNone then
      let idx := p1.factoryCalls
      let p2 := { p1 with factoryCalls := idx + 1 }
      if fOk idx then
        getFinish { p2 with nextConn := p2.nextConn + 1 }
          { w1 with conn := some p2.nextConn, timeInitiated := now } false
      else
        match chanSend rest p2.capacity emptyPlaceholder with
        | none => .blocked p2
        | some q2 =>
          getFinish { p2 with clients := some q2 } { w1 with timeInitiated := now } true
    else
      getFinish p1 w1 false

/-- ClientConn.Close, the release operation. Mirrors the source line by
line: early return AlreadyClosed on a nil connection, early return
Closed on a closed pool, decrement the shared counter, mark unhealthy on
max life expiry, then either tear the connection down (unhealthy and
counter zero), quarantine a clone (unhealthy, counter nonzero) or drop
the clone (healthy; the source also stores timeInitiated into the clone
there, a write that is never read). The connection reference of the
handle of the caller is cleared in every non-early-return path. -/
def releaseConn (p : PoolState) (c : ClientConn) (now : Nat) : RelResult :=
  if c.conn.isNone then .alreadyClosed c p
  else if isClosed p then .errClosed c p
  else
    match c.concurrency with
    | none => .nilDeref p
    | some cid =>
      let counters2 := decrCounter p.counters cid
      let p1 := { p with counters := counters2 }
      let expired : Bool :=
        decide (0 < p.maxLifeDuration) && decide (c.timeInitiated + p.maxLifeDuration < now)
      let c1 := if expired then { c with unhealthy := true } else c
      let wrapper : ClientConn :=
        { conn := c1.conn, timeUsed := now, timeInitiated := 0,
          unhealthy := false, concurrency := c1.concurrency }
      if c1.unhealthy && (counters2.getD cid 0 == 0) then
        .ok { c1 with conn := none } { p1 with closedConns := p1.closedConns ++ c1.conn.toList }
      else if c1.unhealthy then
        match p1.unhealthyClients with
        | none => .blocked p1
        | some uq =>
          match chanSend uq p1.capacity wrapper with
          | none => .blocked p1
          | some uq2 => .ok { c1 with conn := none } { p1 with unhealthyClients := some uq2 }
      else
        .ok { c1 with conn := none } p1

/-- Pool.Close: swap both channels to nil, then drain them, invoking the
grpc Close on every wrapper that holds a connection. -/
def poolClose (p : PoolState) : PoolState :=
  { p with
    clients := none,
    unhealthyClients := none,
    closedConns := p.closedConns
      ++ ((p.clients.getD []).filterMap (fun w => w.conn))
      ++ ((p.unhealthyClients.getD []).filterMap (fun w => w.conn)) }

/-- The clone built at the top of the teardown section of
ClientConn.Close, as a function of the handle being released and the
release time: same connection and same shared counter cell as the
handle, timeUsed set to the release time. -/
def releaseClone (c : ClientConn) (now : Nat) : ClientConn :=
  { conn := c.conn, timeUsed := now, timeInitiated := 0,
    unhealthy := false, concurrency := c.concurrency }

/-! Concrete states and runs used by the claim theorems. They replay the
scenarios of the specification on the embedded code. -/

/-- The pool of the capacity 3, initial count 1 scenario, built at time 0
with a factory that always succeeds and no idle or max life timeout. -/
def scenarioPool31 : Option PoolState := newWithContext (fun _ => true) 1 3 0 0 0

/-- Available after one successful Get at time 1 on `scenarioPool31`. -/
def availAfterOneGet : Option Nat :=
  scenarioPool31.bind fun p =>
    match get (fun _ => true) false p 1 with
    | GetResult.ok s _ => some (available s)
    | _ => none

/-- Available and Capacity right after Pool.Close on `scenarioPool31`. -/
def availCapAfterClose : Option (Nat × Nat) :=
  scenarioPool31.map fun p => (available (poolClose p), capacityOf (poolClose p))

/-- A Get whose factory call fails, on a fresh capacity 1 pool with no
eager connection: the run of the claim C3 scenario. -/
def c3Run : GetResult :=
  match newWithContext (fun _ => true) 0 1 0 0 0 with
  | some p => get (fun _ => false) false p 1
  | none => GetResult.errClosed

/-- Whether the clients queue reached in `c3Run` holds, at its head, the
placeholder pushed back by the failed factory path: an empty wrapper
with no ConcurrencyCounter. -/
def c3QueueHeadCounterMissing : Bool :=
  match c3Run with
  | GetResult.blocked s =>
    match s.clients with
    | some (w :: _) => w.conn.isNone && w.concurrency.isNone
    | _ => false
  | _ => false

/-- The next Get, with a succeeding factory, on the queue state reached
in `c3Run`: it dequeues the counterless placeholder, creates a fresh
connection and then increments through the absent counter pointer. -/
def c9Run : GetResult :=
  match c3Run with
  | GetResult.blocked s => get (fun _ => true) false s 2
  | r => r

/-- Capacity 1, initial count 1, maxLifeDuration 1: the pool of the
claim C7 scenario, built at time 0. -/
def c7Pool : Option PoolState := newWithContext (fun _ => true) 1 1 0 1 0

/-- Get at time 1 on `c7Pool`, then Release at time 3: the released
handle of the caller and the pool state after the release. -/
def c7AfterRelease : Option (ClientConn × PoolState) :=
  c7Pool.bind fun p =>
    match get (fun _ => true) false p 1 with
    | GetResult.ok s1 h1 =>
      match releaseConn s1 h1 3 with
      | RelResult.ok c2 s2 => some (c2, s2)
      | _ => none
    | _ => none

/-- Observations on the claim C7 run: the release marked the handle of
the caller unhealthy and closed connection 0, yet the following Get
returns a wrapper still pointing at the closed connection 0 without a
new factory invocation. -/
def c7Observe : Bool :=
  match c7AfterRelease with
  | some (c2, s2) =>
    c2.unhealthy && decide (0 ∈ s2.closedConns) &&
    (match get (fun _ => true) false s2 4 with
     | GetResult.ok s3 h3 =>
       (h3.conn == some 0) && (s3.factoryCalls == s2.factoryCalls)
     | _ => false)
  | none => false

/-- Capacity 1, initial count 1, idleTimeout 10: Get at time 0, then a
healthy Release at time 5; the pool state after the release. -/
def c8AfterRelease : Option PoolState :=
  (newWithContext (fun _ => true) 1 1 10 0 0).bind fun p =>
    match get (fun _ => true) false p 0 with
    | GetResult.ok s1 h1 =>
      match releaseConn s1 h1 5 with
      | RelResult.ok _ s2 => some s2
      | _ => none
    | _ => none

/-- Observations on the claim C8 run: after the healthy Release at time
5 the live copy in the main queue still carries timeUsed 0, and the next
Get at time 11, though only 6 time units after the release with an idle
timeout of 10, discards the connection and invokes the factory again. -/
def c8Observe : Bool :=
  match c8AfterRelease with
  | some s2 =>
    (match s2.clients with
     | some (w :: _) => w.timeUsed == 0
     | _ => false) &&
    (match get (fun _ => true) false s2 11 with
     | GetResult.ok s3 h3 =>
       (s3.factoryCalls == 2) && (h3.conn == some 1) && decide (0 ∈ s3.closedConns)
     | _ => false)
  | none => false

/-- A live handle on connection 0 with counter cell 0; the first slot of
a freshly warmed capacity 1 pool. -/
def demoHandle : ClientConn :=
  { conn := some 0, timeUsed := 0, timeInitiated := 0, unhealthy := false, concurrency := some 0 }

/-- A capacity 1 pool holding `demoHandle`, right after a Get that
incremented the shared counter to 1. -/
def demoPool : PoolState :=
  { clients := some [demoHandle], unhealthyClients := some [], capacity := 1,
    idleTimeout := 0, maxLifeDuration := 0, counters := [0], closedConns := [],
    nextConn := 1, factoryCalls := 1 }

/-- The state after a successful Get at time 0 on `demoPool`: the
wrapper was re-enqueued and its shared counter incremented. -/
def demoPoolAfterGet : PoolState := { demoPool with counters := [1] }

/-- Like `demoPool` but with maxLifeDuration 1 and one outstanding
checkout: the state reached by a Get at time 1 on the claim C7 pool. -/
def lifePool : PoolState :=
  { clients := some [demoHandle], unhealthyClients := some [], capacity := 1,
    idleTimeout := 0, maxLifeDuration := 1, counters := [1], closedConns := [],
    nextConn := 1, factoryCalls := 1 }

/-- The handle of the caller after releasing `demoHandle` into
`lifePool` at time 3: max life expired, so it was marked unhealthy and
its connection reference cleared. -/
def relHandle : ClientConn :=
  { conn := none, timeUsed := 0, timeInitiated := 0, unhealthy := true, concurrency := some 0 }

/-- The pool state after that release: counter back to 0 and connection
0 torn down. -/
def relPool : PoolState := { lifePool with counters := [0], closedConns := [0] }

/-- A closed pool: both channels nil, as left by Pool.Close. -/
def closedPool : PoolState :=
  { clients := none, unhealthyClients := none, capacity := 1, idleTimeout := 0,
    maxLifeDuration := 0, counters := [1], closedConns := [], nextConn := 1,
    factoryCalls := 1 }

/-! Helper lemmas shared by the claim theorems. -/

/-- If the return section of Get yields `ok`, and the returned wrapper is
healthy, then no factory error was pending and the state it returns is
the input state with exactly that wrapper appended to the clients
queue. -/
theorem getReturn_ok (p : PoolState) (w : ClientConn) (isErr : Bool)
    (s : PoolState) (h : ClientConn)
    (hok : getReturn p w isErr = GetResult.ok s h) (hh : h.unhealthy = false) :
    h = w ∧ isErr = false ∧
    ∃ q, p.clients = some q ∧ s = { p with clients := some (q ++ [w]) } := by
  simp only [getReturn] at hok
  split at hok
  next huw =>
    split at hok
    · simp at hok
    · simp only [GetResult.ok.injEq] at hok
      obtain ⟨rfl, rfl⟩ := hok
      rw [hh] at huw; cases huw
  next huw =>
    split at hok
    · simp at hok
    next q hq =>
      split at hok
      · simp at hok
      next q2 hsend =>
        simp only [chanSend] at hsend
        split at hsend
        · simp only [Option.some.injEq] at hsend
          subst hsend
          split at hok
          · simp at hok
          next hisErr =>
            simp only [GetResult.ok.injEq] at hok
            obtain ⟨rfl, rfl⟩ := hok
            exact ⟨rfl, by simp_all, q, hq, rfl⟩
        · cases hsend

/-- If the counter-increment and return section of Get yields `ok` with
a healthy wrapper, the clients queue of the resulting state is the input
queue with that wrapper appended, and the capacity is unchanged. -/
theorem getFinish_ok_clients (p : PoolState) (w : ClientConn) (isErr : Bool)
    (s : PoolState) (h : ClientConn)
    (hok : getFinish p w isErr = GetResult.ok s h) (hh : h.unhealthy = false) :
    h = w ∧ isErr = false ∧
    ∃ q, p.clients = some q ∧ s.clients = some (q ++ [w]) ∧ s.capacity = p.capacity := by
  simp only [getFinish] at hok
  split at hok
  · split at hok
    · simp at hok
    next cid hcid =>
      obtain ⟨rfl, hisErr, q, hq, rfl⟩ := getReturn_ok _ _ _ _ _ hok hh
      exact ⟨rfl, hisErr, q, hq, rfl, rfl⟩
  · obtain ⟨rfl, hisErr, q, hq, rfl⟩ := getReturn_ok _ _ _ _ _ hok hh
    exact ⟨rfl, hisErr, q, hq, rfl, rfl⟩

/-- Pool.Close closes the connection of every wrapper found in either
queue: its closed set contains every connection id reachable from the
clients or the unhealthyClients channel. -/
theorem poolClose_closes_all (p3 : PoolState) (w : ClientConn) (n : Nat)
    (hw : w ∈ p3.clients.getD [] ++ p3.unhealthyClients.getD []) (hc : w.conn = some n) :
    n ∈ (poolClose p3).closedConns := by
  simp only [poolClose, List.mem_append, List.mem_filterMap]
  rcases List.mem_append.1 hw with hw | hw
  · exact Or.inl (Or.inr ⟨w, hw, hc⟩)
  · exact Or.inr ⟨w, hw, hc⟩

/-- A release that returns `ok` always clears the connection reference
of the handle handed back to the caller. -/
theorem releaseConn_ok_conn (p : PoolState) (c : ClientConn) (now : Nat)
    (c2 : ClientConn) (s2 : PoolState)
    (h : releaseConn p c now = RelResult.ok c2 s2) : c2.conn = none := by
  simp only [releaseConn] at h
  split at h
  · simp at h
  · split at h
    · simp at h
    · split at h
      · simp at h
      next cid hcid =>
        cases hexp : (decide (0 < p.maxLifeDuration) && decide (c.timeInitiated + p.maxLifeDuration < now)) with
        | true =>
          rw [hexp] at h
          simp only [if_true, ite_true] at h
          split at h
          · simp only [RelResult.ok.injEq] at h
            obtain ⟨rfl, -⟩ := h; rfl
          · split at h
            · simp at h
            · split at h
              · simp at h
              · simp only [RelResult.ok.injEq] at h
                obtain ⟨rfl, -⟩ := h; rfl
        | false =>
          rw [hexp] at h
          simp only [if_false, ite_false, Bool.false_eq_true] at h
          split at h
          · simp only [RelResult.ok.injEq] at h
            obtain ⟨rfl, -⟩ := h; rfl
          · split at h
            · split at h
              · simp at h
              · split at h
                · simp at h
                · simp only [RelResult.ok.injEq] at h
                  obtain ⟨rfl, -⟩ := h; rfl
            · simp only [RelResult.ok.injEq] at h
              obtain ⟨rfl, -⟩ := h; rfl

/-! Claim theorems. -/

/-- Claim C1: the claim states that Available plus outstanding checkouts
equals Capacity, and that on a capacity 3 pool one successful Acquire
drops Available from 3 to 2. Evaluating the code at that scenario:
Available is 3 after construction, but after one successful Get it is
still 3 (the wrapper is re-enqueued by Get), with one handle
outstanding, so Available plus outstanding is 4, not the capacity 3, and
TestNew in pool_test.go, which expects 2, fails. Only the after-Close
part of the claim holds: Available and Capacity both report 0 then. -/
theorem C1_code_eval :
    scenarioPool31.map available = some 3 ∧
    availAfterOneGet = some 3 ∧
    availAfterOneGet ≠ some 2 ∧
    availCapAfterClose = some (0, 0) := by decide

/-- Claim C3: the claim states that a Get whose factory call fails
re-inserts exactly one empty placeholder and returns the error. The code
inserts the placeholder and then also tries to re-enqueue the failed
wrapper itself; on a capacity 1 pool whose queue held a single slot this
second send finds the channel full again and blocks forever, so Get
never returns the error. The blocked state reached holds the inserted
placeholder, whose counter pointer is moreover nil. -/
theorem C3_code_eval :
    c3Run = GetResult.blocked
      { clients := some [{ conn := none, timeUsed := 0, timeInitiated := 0,
                           unhealthy := false, concurrency := none }],
        unhealthyClients := some [], capacity := 1, idleTimeout := 0,
        maxLifeDuration := 0, counters := [0], closedConns := [], nextConn := 0,
        factoryCalls := 1 } := by decide

/-- Claim C7: the claim states that with maxLifetime 1 an Acquire
followed by a Release marks the handle unhealthy (which holds) and that
the next Acquire invokes the factory. Evaluating the code: the release
does mark the handle of the caller unhealthy and closes connection 0,
but the copy re-enqueued by the first Get still carries connection 0 and
is not marked, so the next Get hands back the already closed connection
0 without any new factory invocation. -/
theorem C7_code_eval : c7Observe = true := by decide

/-- Claim C8: the claim states that a healthy Release updates timeUsed
on the live copy sitting in the main queue, so that an Acquire within
the idle timeout reuses the connection without a factory call.
Evaluating the code: the release-time clone carrying timeUsed 5 is
discarded (a dead store in the healthy branch of ClientConn.Close), the
queue copy keeps timeUsed 0, and a Get at time 11, only 6 units after
the release with idleTimeout 10, closes connection 0 and invokes the
factory a second time. -/
theorem C8_code_eval : c8Observe = true := by decide

/-- Claim C9: the claim states that every handle stored in the main
queue carries a non-nil shared UsageCounter, so the increment in Get
never dereferences an absent counter. Evaluating the code: the failed
factory path pushes back the bare placeholder `ClientConn{pool: p}`,
whose counter pointer is nil, and the next Get that dequeues it and
obtains a fresh connection dereferences that nil pointer at the
increment. -/
theorem C9_code_eval :
    c3QueueHeadCounterMissing = true ∧
    c9Run = GetResult.nilDeref
      { clients := some [], unhealthyClients := some [], capacity := 1,
        idleTimeout := 0, maxLifeDuration := 0, counters := [0], closedConns := [],
        nextConn := 1, factoryCalls := 2 } := by decide

/-- The coerced capacity is at least one slot. -/
theorem one_le_coercedCapacity (capacity : Int) : 1 ≤ (coercedCapacity capacity).toNat := by
  simp only [coercedCapacity]; split_ifs <;> omega

/-- The coerced initial count never exceeds the coerced capacity. -/
theorem coercedInit_le (init capacity : Int) :
    (coercedInit init (coercedCapacity capacity)).toNat ≤ (coercedCapacity capacity).toNat := by
  simp only [coercedInit, coercedCapacity]
  split_ifs <;> omega

/-- Claim C6: construction coerces capacity to at least 1 and the
initial count into the range from 0 to capacity, invokes the factory
eagerly exactly that many times (all successfully, when a pool comes
back), returns no pool exactly when one of those eager calls fails,
fills the first initial-count slots with live connections and the rest
with empty placeholder wrappers that do carry counter cells, and leaves
Available equal to the capacity immediately after construction. -/
theorem C6_construction (fOk : Nat → Bool) (init capacity : Int) (idle maxLife now : Nat) :
    (∀ p, newWithContext fOk init capacity idle maxLife now = some p →
      p.capacity = (coercedCapacity capacity).toNat ∧
      1 ≤ p.capacity ∧
      p.factoryCalls = (coercedInit init (coercedCapacity capacity)).toNat ∧
      p.factoryCalls ≤ p.capacity ∧
      (∀ i, i < p.factoryCalls → fOk i = true) ∧
      available p = p.capacity ∧
      capacityOf p = p.capacity ∧
      ∃ q, p.clients = some q ∧
        q.length = p.capacity ∧
        (∀ w ∈ q.take p.factoryCalls, w.conn.isSome = true) ∧
        (∀ w ∈ q.drop p.factoryCalls, w.conn = none ∧ w.concurrency.isSome = true)) ∧
    (newWithContext fOk init capacity idle maxLife now = none ↔
      ∃ i, i < (coercedInit init (coercedCapacity capacity)).toNat ∧ fOk i = false) := by
  have hle := coercedInit_le init capacity
  constructor
  · intro p hp
    simp only [newWithContext] at hp
    split at hp
    next hall =>
      simp only [Option.some.injEq] at hp
      subst hp
      simp only [List.all_eq_true, List.mem_range] at hall
      refine ⟨rfl, one_le_coercedCapacity capacity, rfl, hle,
        fun i hi => hall i hi, ?_, ?_, ?_⟩
      · simp [available, isClosed]
        omega
      · simp [capacityOf, isClosed]
      · refine ⟨_, rfl, ?_, ?_, ?_⟩
        · simp [List.length_append]
          omega
        · rw [List.take_left' (by simp)]
          rintro w hw
          simp only [List.mem_map, List.mem_range] at hw
          obtain ⟨i, hi, rfl⟩ := hw
          rfl
        · rw [List.drop_left' (by simp)]
          rintro w hw
          simp only [List.mem_map, List.mem_range] at hw
          obtain ⟨j, hj, rfl⟩ := hw
          exact ⟨rfl, rfl⟩
    · cases hp
  · simp only [newWithContext]
    split
    next hall =>
      simp only [List.all_eq_true, List.mem_range] at hall
      constructor
      · intro hcontra; cases hcontra
      · rintro ⟨i, hi, hf⟩
        rw [hall i hi] at hf; cases hf
    next hall =>
      simp only [List.all_eq_true, List.mem_range] at hall
      push_neg at hall
      obtain ⟨i, hi, hf⟩ := hall
      constructor
      · intro _
        exact ⟨i, hi, by simpa using hf⟩
      · intro _
        rfl

/-- Witness for claim C6: the construction clauses instantiated at the
capacity 3, initial count 1 pool with an always succeeding factory. -/
theorem C6_construction_witness :
    (∀ p, newWithContext (fun _ => true) 1 3 0 0 0 = some p →
      p.capacity = (coercedCapacity 3).toNat ∧
      1 ≤ p.capacity ∧
      p.factoryCalls = (coercedInit 1 (coercedCapacity 3)).toNat ∧
      p.factoryCalls ≤ p.capacity ∧
      (∀ i, i < p.factoryCalls → (fun _ => true) i = true) ∧
      available p = p.capacity ∧
      capacityOf p = p.capacity ∧
      ∃ q, p.clients = some q ∧
        q.length = p.capacity ∧
        (∀ w ∈ q.take p.factoryCalls, w.conn.isSome = true) ∧
        (∀ w ∈ q.drop p.factoryCalls, w.conn = none ∧ w.concurrency.isSome = true)) ∧
    (newWithContext (fun _ => true) 1 3 0 0 0 = none ↔
      ∃ i, i < (coercedInit 1 (coercedCapacity 3)).toNat ∧ (fun _ => true) i = false) :=
  C6_construction (fun _ => true) 1 3 0 0 0

/-- Claim C2: whenever Get succeeds with a healthy handle, that very
wrapper value has been appended to the main queue before Get returns (so
the returned handle and the queued copy carry the same connection and
the same shared counter cell reference), the returned handle holds a
live connection, and the checkout leaves Available unchanged: the
physical connection was not removed from availability. -/
theorem C2_reenqueue_live_copy (fOk : Nat → Bool) (ctxDone : Bool) (p : PoolState)
    (now : Nat) (s : PoolState) (h : ClientConn)
    (hok : get fOk ctxDone p now = GetResult.ok s h) (hh : h.unhealthy = false) :
    h.conn.isSome = true ∧
    s.clients = some ((p.clients.getD []).tail ++ [h]) ∧
    available s = available p := by
  unfold get at hok
  split at hok
  · simp at hok
  · split at hok <;> simp at hok
  next w rest heq =>
    simp only [] at hok
    cases hev : (w.conn.isSome && decide (0 < p.idleTimeout) && decide (w.timeUsed + p.idleTimeout < now)) with
    | true =>
      rw [hev] at hok
      simp only [if_true, ite_true, Option.isNone_none, Option.isNone_some] at hok
      split at hok
      next hf =>
        obtain ⟨rfl, -, q, hq, hsc, hscap⟩ := getFinish_ok_clients _ _ _ _ _ hok hh
        obtain rfl : rest = q := by injection hq
        refine ⟨rfl, ?_, ?_⟩
        · rw [heq]; simpa using hsc
        · simp [available, isClosed, heq, hsc]
      next hf =>
        split at hok
        · simp at hok
        next q2 hsend =>
          obtain ⟨-, habs, -⟩ := getFinish_ok_clients _ _ _ _ _ hok hh
          simp at habs
    | false =>
      rw [hev] at hok
      simp only [if_false, ite_false, Bool.false_eq_true] at hok
      split at hok
      next hcn =>
        split at hok
        next hf =>
          obtain ⟨rfl, -, q, hq, hsc, hscap⟩ := getFinish_ok_clients _ _ _ _ _ hok hh
          obtain rfl : rest = q := by injection hq
          refine ⟨rfl, ?_, ?_⟩
          · rw [heq]; simpa using hsc
          · simp [available, isClosed, heq, hsc]
        next hf =>
          split at hok
          · simp at hok
          next q2 hsend =>
            obtain ⟨-, habs, -⟩ := getFinish_ok_clients _ _ _ _ _ hok hh
            simp at habs
      next hcn =>
        obtain ⟨rfl, -, q, hq, hsc, hscap⟩ := getFinish_ok_clients _ _ _ _ _ hok hh
        obtain rfl : rest = q := by injection hq
        refine ⟨?_, ?_, ?_⟩
        · rcases hwc : h.conn with _ | a
          · rw [hwc] at hcn; simp at hcn
          · simp [hwc]
        · rw [heq]; simpa using hsc
        · simp [available, isClosed, heq, hsc]

/-- Witness for claim C2: a concrete successful Get at time 0 on the
warmed capacity 1 pool, whose returned live handle is also the last
element of the resulting queue. -/
theorem C2_reenqueue_live_copy_witness :
    demoHandle.conn.isSome = true ∧
    demoPoolAfterGet.clients = some ((demoPool.clients.getD []).tail ++ [demoHandle]) ∧
    available demoPoolAfterGet = available demoPool :=
  C2_reenqueue_live_copy (fun _ => true) false demoPool 0 demoPoolAfterGet demoHandle
    (by decide) (by decide)

/-- Claim C4: a successful release tears a connection down (that is,
grows the closed set) only when the handle ended up unhealthy and the
shared counter read zero after the decrement; an unhealthy handle whose
counter is still nonzero is instead appended, as a live clone sharing
the same connection and counter reference, to the quarantine queue with
nothing closed; and Pool.Close closes every connection found in either
queue, with no condition on the counters. A successful release also
presupposes a present counter reference. -/
theorem C4_teardown_policy (p : PoolState) (c : ClientConn) (now : Nat)
    (c2 : ClientConn) (s2 : PoolState)
    (h : releaseConn p c now = RelResult.ok c2 s2) :
    c.concurrency.isSome = true ∧
    (s2.closedConns ≠ p.closedConns →
      c2.unhealthy = true ∧ s2.counters.getD (c.concurrency.getD 0) 0 = 0) ∧
    (c2.unhealthy = true → s2.counters.getD (c.concurrency.getD 0) 0 ≠ 0 →
      s2.closedConns = p.closedConns ∧
      s2.unhealthyClients = some (p.unhealthyClients.getD [] ++ [releaseClone c now])) ∧
    (∀ (p3 : PoolState) (w : ClientConn) (n : Nat),
      w ∈ p3.clients.getD [] ++ p3.unhealthyClients.getD [] → w.conn = some n →
      n ∈ (poolClose p3).closedConns) := by
  simp only [releaseConn] at h
  split at h
  · simp at h
  · split at h
    · simp at h
    · split at h
      · simp at h
      next cid hcid =>
        cases hexp : (decide (0 < p.maxLifeDuration) && decide (c.timeInitiated + p.maxLifeDuration < now)) with
        | true =>
          rw [hexp] at h
          simp only [if_true, ite_true] at h
          split at h
          next hz =>
            simp only [Bool.true_and, beq_iff_eq] at hz
            simp only [RelResult.ok.injEq] at h
            obtain ⟨rfl, rfl⟩ := h
            refine ⟨by simp [hcid], fun _ => ⟨rfl, by simpa [hcid] using hz⟩,
              fun _ h2 => absurd (by simpa [hcid] using hz) h2,
              fun p3 w n hw hc => poolClose_closes_all p3 w n hw hc⟩
          next hz =>
            split at h
            · simp at h
            next uq huq =>
              split at h
              · simp at h
              next uq2 hsend =>
                simp only [RelResult.ok.injEq] at h
                obtain ⟨rfl, rfl⟩ := h
                simp only [chanSend] at hsend
                split at hsend
                · simp only [Option.some.injEq] at hsend
                  subst hsend
                  refine ⟨by simp [hcid], fun hne => absurd rfl hne,
                    fun _ _ => ⟨rfl, by simp [huq, releaseClone]⟩,
                    fun p3 w n hw hc => poolClose_closes_all p3 w n hw hc⟩
                · cases hsend
        | false =>
          rw [hexp] at h
          simp only [if_false, ite_false, Bool.false_eq_true] at h
          split at h
          next hz =>
            simp only [Bool.and_eq_true, beq_iff_eq] at hz
            simp only [RelResult.ok.injEq] at h
            obtain ⟨rfl, rfl⟩ := h
            refine ⟨by simp [hcid], fun _ => ⟨hz.1, by simpa [hcid] using hz.2⟩,
              fun _ h2 => absurd (by simpa [hcid] using hz.2) h2,
              fun p3 w n hw hc => poolClose_closes_all p3 w n hw hc⟩
          next hz =>
            split at h
            next hcu =>
              split at h
              · simp at h
              next uq huq =>
                split at h
                · simp at h
                next uq2 hsend =>
                  simp only [RelResult.ok.injEq] at h
                  obtain ⟨rfl, rfl⟩ := h
                  simp only [chanSend] at hsend
                  split at hsend
                  · simp only [Option.some.injEq] at hsend
                    subst hsend
                    refine ⟨by simp [hcid], fun hne => absurd rfl hne,
                      fun _ _ => ⟨rfl, by simp [huq, releaseClone]⟩,
                      fun p3 w n hw hc => poolClose_closes_all p3 w n hw hc⟩
                  · cases hsend
            next hcu =>
              simp only [RelResult.ok.injEq] at h
              obtain ⟨rfl, rfl⟩ := h
              refine ⟨by simp [hcid], fun hne => absurd rfl hne,
                fun h1 _ => absurd h1 hcu,
                fun p3 w n hw hc => poolClose_closes_all p3 w n hw hc⟩

/-- Witness for claim C4: the release at time 3 of the max-life-expired
handle in the capacity 1 pool, which ends in a teardown. -/
theorem C4_teardown_policy_witness :
    demoHandle.concurrency.isSome = true ∧
    (relPool.closedConns ≠ lifePool.closedConns →
      relHandle.unhealthy = true ∧
      relPool.counters.getD (demoHandle.concurrency.getD 0) 0 = 0) ∧
    (relHandle.unhealthy = true → relPool.counters.getD (demoHandle.concurrency.getD 0) 0 ≠ 0 →
      relPool.closedConns = lifePool.closedConns ∧
      relPool.unhealthyClients = some (lifePool.unhealthyClients.getD [] ++ [releaseClone demoHandle 3])) ∧
    (∀ (p3 : PoolState) (w : ClientConn) (n : Nat),
      w ∈ p3.clients.getD [] ++ p3.unhealthyClients.getD [] → w.conn = some n →
      n ∈ (poolClose p3).closedConns) :=
  C4_teardown_policy lifePool demoHandle 3 relHandle relPool (by decide)

/-- Claim C5: once a release has succeeded, a second release of the
handle handed back to the caller returns AlreadyClosed carrying that
handle and the pool state untouched: no counter decrement, no queue
change. -/
theorem C5_double_release (p : PoolState) (c : ClientConn) (now now2 : Nat)
    (c2 : ClientConn) (s2 : PoolState)
    (h : releaseConn p c now = RelResult.ok c2 s2) :
    releaseConn s2 c2 now2 = RelResult.alreadyClosed c2 s2 := by
  have hc := releaseConn_ok_conn p c now c2 s2 h
  simp [releaseConn, hc]

/-- Witness for claim C5: the second release at time 4 of the handle
released at time 3 yields AlreadyClosed with everything unchanged. -/
theorem C5_double_release_witness :
    releaseConn relPool relHandle 4 = RelResult.alreadyClosed relHandle relPool :=
  C5_double_release lifePool demoHandle 3 4 relHandle relPool (by decide)

/-- Claim C10: releasing a handle whose pool is closed returns the
Closed error and leaves both the handle and the pool untouched: the
result carries the handle and the state unchanged, so the counter was
not decremented, no unhealthy marking happened and the connection
reference survives, and a repeated Release (second conjunct, at a later
time) again returns the Closed error rather than AlreadyClosed. -/
theorem C10_release_on_closed_pool (p : PoolState) (c : ClientConn) (now now2 : Nat)
    (hconn : c.conn.isSome = true) (hcl : isClosed p = true) :
    releaseConn p c now = RelResult.errClosed c p ∧
    releaseConn p c now2 = RelResult.errClosed c p := by
  cases hc : c.conn with
  | none => rw [hc] at hconn; cases hconn
  | some a => constructor <;> simp [releaseConn, hc, hcl]

/-- Witness for claim C10 at a concrete closed pool and live handle. -/
theorem C10_release_on_closed_pool_witness :
    releaseConn closedPool demoHandle 1 = RelResult.errClosed demoHandle closedPool ∧
    releaseConn closedPool demoHandle 2 = RelResult.errClosed demoHandle closedPool :=
  C10_release_on_closed_pool closedPool demoHandle 1 2 (by decide) (by decide)

end GrpcPool
